import Mathlib

/-!
Shallow embedding of `src/c/accOrientation.c` (vector algebra, two rotation
operators, orientation-basis construction and signed-magnitude decomposition)
over the real numbers, together with theorems settling the spec claims.

Modelling conventions:
* C `float`/`double` arithmetic is modelled by exact real arithmetic; the
  transcendental calls `sqrtf`, `cos`, `sin` become `Real.sqrt`, `Real.cos`,
  `Real.sin`.
* The C line `int vm = vectorMagnitude(inputV);` converts a nonnegative
  `double` to `int`, truncating toward zero; for a nonnegative value this is
  the floor, modelled by `Int.floor`.
* The `#define PI 3.1415` constant is kept as the exact rational 3.1415,
  exactly as in the source.
* Where the C source would divide by zero (IEEE-754 NaN/inf), the embedding
  never asserts a result value; theorems about those inputs only state that
  the divisor is zero.
-/

namespace AccOrientation

/-- The `Vector` struct of `accOrientation.h`: three scalar components. -/
@[ext]
structure Vector where
  X : ℝ
  Y : ℝ
  Z : ℝ

/-- The `Orientation` struct of `accOrientation.h`: the three basis vectors. -/
@[ext]
structure Orientation where
  vUp : Vector
  vFront : Vector
  vRight : Vector

/-- The `OrientationMagnitude` struct of `accOrientation.h`: signed magnitudes
along each basis direction. -/
@[ext]
structure OrientationMagnitude where
  UP : ℝ
  FRONT : ℝ
  RIGHT : ℝ

/-- Line 13 of `accOrientation.c`: the truncated constant 3.1415. -/
def PI : ℝ := 3.1415

/-- Lines 26-28: Euclidean magnitude `sqrtf(X*X + Y*Y + Z*Z)`. -/
noncomputable def vectorMagnitude (v : Vector) : ℝ :=
  Real.sqrt (v.X * v.X + v.Y * v.Y + v.Z * v.Z)

/-- Line 31: `int vm = vectorMagnitude(inputV);` — the magnitude is stored in
an `int` local, truncating toward zero (equal to the floor, as the magnitude
is nonnegative). -/
noncomputable def unitVectorDivisor (inputV : Vector) : ℤ :=
  ⌊vectorMagnitude inputV⌋

/-- Lines 30-35: each component divided by the truncated integer magnitude. -/
noncomputable def unitVector (inputV : Vector) : Vector :=
  ⟨inputV.X / (unitVectorDivisor inputV : ℝ),
   inputV.Y / (unitVectorDivisor inputV : ℝ),
   inputV.Z / (unitVectorDivisor inputV : ℝ)⟩

/-- Lines 37-39: the dot product. -/
def dotProduct (v1 v2 : Vector) : ℝ :=
  v1.X * v2.X + v1.Y * v2.Y + v1.Z * v2.Z

/-- Lines 41-45: componentwise subtraction. -/
def subtractVectors (v1 v2 : Vector) : Vector :=
  ⟨v1.X - v2.X, v1.Y - v2.Y, v1.Z - v2.Z⟩

/-- Lines 47-54: the 3-D cross product. -/
def crossProduct (v1 v2 : Vector) : Vector :=
  ⟨v1.Y * v2.Z - v1.Z * v2.Y,
   v1.Z * v2.X - v1.X * v2.Z,
   v1.X * v2.Y - v1.Y * v2.X⟩

/-- Lines 56-58: `dotProduct(v1, v2) < 0`. -/
def isVectorsInOppositeDirection (v1 v2 : Vector) : Prop :=
  dotProduct v1 v2 < 0

noncomputable instance (v1 v2 : Vector) :
    Decidable (isVectorsInOppositeDirection v1 v2) :=
  inferInstanceAs (Decidable (dotProduct v1 v2 < 0))

/-- Lines 60-90: rotate `v1` toward `v2` by `angle` degrees, via the in-plane
basis `e1 = unitVector(v1)`, `e2 = unitVector(v2 - c1*e1)`. -/
noncomputable def rotateVectorThroughAnotherVector
    (v1 v2 : Vector) (angle : ℤ) : Vector :=
  let e1 := unitVector v1
  let c1 := dotProduct v2 e1
  let u2 : Vector := ⟨v2.X - c1 * e1.X, v2.Y - c1 * e1.Y, v2.Z - c1 * e1.Z⟩
  let e2 := unitVector u2
  let v1_m := vectorMagnitude v1
  let radians := (angle : ℝ) * (PI / 180)
  let cosRad := Real.cos radians
  let sinRad := Real.sin radians
  ⟨(v1_m * cosRad) * e1.X + (v1_m * sinRad) * e2.X,
   (v1_m * cosRad) * e1.Y + (v1_m * sinRad) * e2.Y,
   (v1_m * cosRad) * e1.Z + (v1_m * sinRad) * e2.Z⟩

/-- Lines 92-99: projection of `v1` onto `v2`. -/
noncomputable def vectorComponentParallelToAnotherVector
    (v1 v2 : Vector) : Vector :=
  let aux := dotProduct v1 v2 / dotProduct v2 v2
  ⟨aux * v2.X, aux * v2.Y, aux * v2.Z⟩

/-- Line 109: the local `paralelToV2` of `rotateVectorAroundAnotherVector`. -/
noncomputable def paralelToV2 (v1 v2 : Vector) : Vector :=
  vectorComponentParallelToAnotherVector v1 v2

/-- Line 112: the local `perpendicularToV2` of
`rotateVectorAroundAnotherVector`. -/
noncomputable def perpendicularToV2 (v1 v2 : Vector) : Vector :=
  subtractVectors v1 (paralelToV2 v1 v2)

/-- Line 115: the local `w = crossProduct(v2, perpendicularToV2)` of
`rotateVectorAroundAnotherVector`. -/
noncomputable def rotationAxisW (v1 v2 : Vector) : Vector :=
  crossProduct v2 (perpendicularToV2 v1 v2)

/-- Lines 101-125: rotate `v1` around the axis `v2` by `angle` degrees, by the
Rodrigues-style decomposition of the source. -/
noncomputable def rotateVectorAroundAnotherVector
    (v1 v2 : Vector) (angle : ℤ) : Vector :=
  let radians := (angle : ℝ) * (PI / 180)
  let w := rotationAxisW v1 v2
  let perpendicularToV2_mag := vectorMagnitude (perpendicularToV2 v1 v2)
  let w_mag := vectorMagnitude w
  let cosRad := Real.cos radians
  let sinRad := Real.sin radians
  ⟨(paralelToV2 v1 v2).X + (perpendicularToV2 v1 v2).X * cosRad
     + perpendicularToV2_mag * (w.X / w_mag) * sinRad,
   (paralelToV2 v1 v2).Y + (perpendicularToV2 v1 v2).Y * cosRad
     + perpendicularToV2_mag * (w.Y / w_mag) * sinRad,
   (paralelToV2 v1 v2).Z + (perpendicularToV2 v1 v2).Z * cosRad
     + perpendicularToV2_mag * (w.Z / w_mag) * sinRad⟩

/-- Lines 127-133: build the orientation basis; `vFront` by rotating `vUp` 90
degrees toward `vUpFront`, `vRight` by rotating `vUp` 90 degrees around
`vFront`, and `vUp` copied verbatim (the `memcpy`). -/
noncomputable def findOrientation (vUp vUpFront : Vector) : Orientation :=
  let vFront := rotateVectorThroughAnotherVector vUp vUpFront 90
  ⟨vUp, vFront, rotateVectorAroundAnotherVector vUp vFront 90⟩

/-- Lines 135-140: project `v` onto each basis axis. -/
noncomputable def findVectorComponentsInTheOrientation
    (v : Vector) (orientation : Orientation) : Orientation :=
  ⟨vectorComponentParallelToAnotherVector v orientation.vUp,
   vectorComponentParallelToAnotherVector v orientation.vFront,
   vectorComponentParallelToAnotherVector v orientation.vRight⟩

/-- Lines 142-160: magnitude of each projection, negated when the projection
points opposite to its basis axis. -/
noncomputable def findVectorsMagnitudeInTheOrientation
    (v : Vector) (orientation : Orientation) : OrientationMagnitude :=
  let vComponents := findVectorComponentsInTheOrientation v orientation
  let gUP := vectorMagnitude vComponents.vUp
  let gFRONT := vectorMagnitude vComponents.vFront
  let gRIGHT := vectorMagnitude vComponents.vRight
  ⟨if isVectorsInOppositeDirection orientation.vUp vComponents.vUp
      then -gUP else gUP,
   if isVectorsInOppositeDirection orientation.vFront vComponents.vFront
      then -gFRONT else gFRONT,
   if isVectorsInOppositeDirection orientation.vRight vComponents.vRight
      then -gRIGHT else gRIGHT⟩

/-- Evaluation helper: the magnitude of a vector whose squared length is the
square of a given nonnegative number. -/
lemma vectorMagnitude_eval (v : Vector) (m : ℝ) (hm : 0 ≤ m)
    (h : v.X * v.X + v.Y * v.Y + v.Z * v.Z = m * m) :
    vectorMagnitude v = m := by
  rw [vectorMagnitude, h, Real.sqrt_mul_self hm]

/-- Evaluation helper: `unitVector` at a vector whose magnitude lies in the
integer interval `[k, k+1)`, so that the truncated divisor is `k`. -/
lemma unitVector_eval (v : Vector) (m : ℝ) (k : ℤ)
    (hm : vectorMagnitude v = m) (hk : (k : ℝ) ≤ m) (hk1 : m < k + 1) :
    unitVector v = ⟨v.X / (k : ℝ), v.Y / (k : ℝ), v.Z / (k : ℝ)⟩ := by
  have hd : unitVectorDivisor v = k := by
    rw [unitVectorDivisor, hm, Int.floor_eq_iff]
    exact ⟨hk, hk1⟩
  rw [unitVector, hd]

/-- Claim C3: for a non-zero vector of magnitude strictly below 1, the integer
local `vm` of `unitVector` truncates to 0, so each component is divided by
zero even though the precondition magnitude(v) ≠ 0 holds. -/
theorem C3_unitVector_divisor_truncates_to_zero (v : Vector)
    (h0 : vectorMagnitude v ≠ 0) (h1 : vectorMagnitude v < 1) :
    unitVectorDivisor v = 0 ∧
      unitVector v = ⟨v.X / 0, v.Y / 0, v.Z / 0⟩ := by
  have hge : 0 ≤ vectorMagnitude v := Real.sqrt_nonneg _
  have hfloor : unitVectorDivisor v = 0 := by
    rw [unitVectorDivisor, Int.floor_eq_zero_iff]
    exact Set.mem_Ico.mpr ⟨hge, h1⟩
  refine ⟨hfloor, ?_⟩
  rw [unitVector, hfloor]
  norm_num

/-- Witness for C3 at v = (0.5, 0, 0), whose magnitude is 0.5. -/
theorem C3_witness :
    vectorMagnitude ⟨0.5, 0, 0⟩ ≠ 0 ∧ vectorMagnitude ⟨0.5, 0, 0⟩ < 1 ∧
      unitVectorDivisor ⟨0.5, 0, 0⟩ = 0 := by
  have hm : vectorMagnitude ⟨0.5, 0, 0⟩ = 0.5 :=
    vectorMagnitude_eval _ 0.5 (by norm_num) (by norm_num)
  have h0 : vectorMagnitude (⟨0.5, 0, 0⟩ : Vector) ≠ 0 := by rw [hm]; norm_num
  have h1 : vectorMagnitude (⟨0.5, 0, 0⟩ : Vector) < 1 := by rw [hm]; norm_num
  exact ⟨h0, h1, (C3_unitVector_divisor_truncates_to_zero _ h0 h1).1⟩

/-- Claim C1 (failing evaluation): at v = (1.5, 0, 0), whose magnitude 1.5 is
non-zero, `unitVector` divides by the truncated integer 1 and returns
(1.5, 0, 0), whose magnitude is 1.5, not approximately 1. -/
theorem C1_code_eval :
    vectorMagnitude ⟨1.5, 0, 0⟩ = 1.5 ∧
      unitVector ⟨1.5, 0, 0⟩ = ⟨1.5, 0, 0⟩ ∧
      vectorMagnitude (unitVector ⟨1.5, 0, 0⟩) = 1.5 := by
  have hm : vectorMagnitude ⟨1.5, 0, 0⟩ = 1.5 :=
    vectorMagnitude_eval _ 1.5 (by norm_num) (by norm_num)
  have hd : unitVectorDivisor ⟨1.5, 0, 0⟩ = 1 := by
    rw [unitVectorDivisor, hm, Int.floor_eq_iff] <;> norm_num
  have hu : unitVector (⟨1.5, 0, 0⟩ : Vector) = ⟨1.5, 0, 0⟩ := by
    rw [unitVector, hd]
    norm_num
  exact ⟨hm, hu, by rw [hu, hm]⟩

/-- Claim C4 (failing evaluation): at v1 = (1.5, 0, 0), v2 = (0, 2, 0) and
angle 0, `rotateVectorThroughAnotherVector` returns (2.25, 0, 0) rather than
v1, because `e1 = unitVector(v1)` is (1.5, 0, 0) after the truncated integer
division, and the result is `|v1| * cos(0) * e1 = 1.5 * e1`. -/
theorem C4_code_eval :
    rotateVectorThroughAnotherVector ⟨1.5, 0, 0⟩ ⟨0, 2, 0⟩ 0 = ⟨2.25, 0, 0⟩ ∧
      ((⟨2.25, 0, 0⟩ : Vector) ≠ ⟨1.5, 0, 0⟩) := by
  constructor
  · have hu1 : unitVector (⟨1.5, 0, 0⟩ : Vector) = ⟨1.5, 0, 0⟩ := by
      rw [unitVector_eval ⟨1.5, 0, 0⟩ 1.5 1
        (vectorMagnitude_eval _ 1.5 (by norm_num) (by norm_num))
        (by norm_num) (by norm_num)]
      norm_num
    have hu2 : unitVector (⟨0, 2, 0⟩ : Vector) = ⟨0, 1, 0⟩ := by
      rw [unitVector_eval ⟨0, 2, 0⟩ 2 2
        (vectorMagnitude_eval _ 2 (by norm_num) (by norm_num))
        (by norm_num) (by norm_num)]
      norm_num
    have hm1 : vectorMagnitude ⟨1.5, 0, 0⟩ = 1.5 :=
      vectorMagnitude_eval _ 1.5 (by norm_num) (by norm_num)
    simp only [rotateVectorThroughAnotherVector, hu1, dotProduct, PI]
    norm_num [hm1, hu2, Real.cos_zero, Real.sin_zero]
    rw [vectorMagnitude_eval _ (3 / 2) (by norm_num) (by norm_num)]
    norm_num
  · intro h
    have := congrArg Vector.X h
    norm_num at this

/-- Claim C2 (failing evaluation): with vUp = (0, 0, 1.5) and
vUpFront = (1.5, 0, 0), the `vFront` produced by `findOrientation` has
magnitude exactly 2.25, not approximately the magnitude 1.5 of vUp, because
both unit vectors inside `rotateVectorThroughAnotherVector` are scaled by the
truncated integer division. -/
theorem C2_code_eval :
    vectorMagnitude (⟨0, 0, 1.5⟩ : Vector) = 1.5 ∧
      vectorMagnitude ((findOrientation ⟨0, 0, 1.5⟩ ⟨1.5, 0, 0⟩).vFront)
        = 2.25 := by
  have hmUp : vectorMagnitude (⟨0, 0, 1.5⟩ : Vector) = 1.5 :=
    vectorMagnitude_eval _ 1.5 (by norm_num) (by norm_num)
  refine ⟨hmUp, ?_⟩
  have hu1 : unitVector (⟨0, 0, 1.5⟩ : Vector) = ⟨0, 0, 1.5⟩ := by
    rw [unitVector_eval ⟨0, 0, 1.5⟩ 1.5 1 hmUp (by norm_num) (by norm_num)]
    norm_num
  have hu2 : unitVector (⟨1.5, 0, 0⟩ : Vector) = ⟨1.5, 0, 0⟩ := by
    rw [unitVector_eval ⟨1.5, 0, 0⟩ 1.5 1
      (vectorMagnitude_eval _ 1.5 (by norm_num) (by norm_num))
      (by norm_num) (by norm_num)]
    norm_num
  have hvF : (findOrientation ⟨0, 0, 1.5⟩ ⟨1.5, 0, 0⟩).vFront
      = rotateVectorThroughAnotherVector ⟨0, 0, 1.5⟩ ⟨1.5, 0, 0⟩ 90 := rfl
  rw [hvF]
  simp only [rotateVectorThroughAnotherVector, hu1, dotProduct, PI]
  rw [show ((90 : ℤ) : ℝ) * (3.1415 / 180) = 1.57075 by push_cast; norm_num]
  have hu2' : unitVector
      (⟨1.5 - (1.5 * 0 + 0 * 0 + 0 * 1.5) * 0,
        0 - (1.5 * 0 + 0 * 0 + 0 * 1.5) * 0,
        0 - (1.5 * 0 + 0 * 0 + 0 * 1.5) * 1.5⟩ : Vector)
      = ⟨1.5, 0, 0⟩ := by
    rw [show (⟨1.5 - (1.5 * 0 + 0 * 0 + 0 * 1.5) * 0,
        0 - (1.5 * 0 + 0 * 0 + 0 * 1.5) * 0,
        0 - (1.5 * 0 + 0 * 0 + 0 * 1.5) * 1.5⟩ : Vector) = ⟨1.5, 0, 0⟩ by
      ext <;> norm_num]
    exact hu2
  rw [hu2', hmUp]
  apply vectorMagnitude_eval _ 2.25 (by norm_num)
  linear_combination (5.0625 : ℝ) * Real.sin_sq_add_cos_sq 1.57075

/-- The radian value the source uses for 90 degrees is
90 * (3.1415 / 180) = 1.57075, slightly below pi / 2; its cosine is a small
positive number. -/
lemma cos_157075_bounds :
    0 < Real.cos 1.57075 ∧ Real.cos 1.57075 < 0.0001 := by
  have hgt := Real.pi_gt_d6
  have hlt := Real.pi_lt_d6
  constructor
  · apply Real.cos_pos_of_mem_Ioo
    refine Set.mem_Ioo.mpr ⟨?_, ?_⟩
    · have hpi : (0:ℝ) < Real.pi := Real.pi_pos
      linarith
    · linarith
  · have h1 : Real.cos 1.57075 = Real.sin (Real.pi / 2 - 1.57075) :=
      (Real.sin_pi_div_two_sub 1.57075).symm
    have h2 : Real.sin (Real.pi / 2 - 1.57075) ≤ Real.pi / 2 - 1.57075 :=
      Real.sin_le (by linarith)
    linarith

/-- The sine of 1.57075 is close to 1. -/
lemma sin_157075_bounds :
    0.9 < Real.sin 1.57075 ∧ Real.sin 1.57075 ≤ 1 := by
  have hgt := Real.pi_gt_d6
  have hc := cos_157075_bounds
  have hs0 : 0 ≤ Real.sin 1.57075 :=
    Real.sin_nonneg_of_nonneg_of_le_pi (by norm_num) (by linarith)
  have hsq := Real.sin_sq_add_cos_sq 1.57075
  exact ⟨by nlinarith [hc.1, hc.2, hs0, hsq], Real.sin_le_one _⟩

/-- The radian value the source uses for 360 degrees is
360 * (3.1415 / 180) = 6.283, slightly below 2 * pi; its sine is a small
negative number. -/
lemma sin_6283_bounds :
    -0.000186 < Real.sin 6.283 ∧ Real.sin 6.283 ≤ 0 := by
  have hgt := Real.pi_gt_d6
  have hlt := Real.pi_lt_d6
  have harg : (6.283 : ℝ) = 2 * Real.pi - (2 * Real.pi - 6.283) := by ring
  have he : Real.sin 6.283 = -Real.sin (2 * Real.pi - 6.283) := by
    nth_rewrite 1 [harg]
    exact Real.sin_two_pi_sub _
  have hd0 : (0:ℝ) ≤ 2 * Real.pi - 6.283 := by linarith
  have hdle : 2 * Real.pi - 6.283 < 0.000186 := by linarith
  have hsle : Real.sin (2 * Real.pi - 6.283) ≤ 2 * Real.pi - 6.283 :=
    Real.sin_le hd0
  have hsge : 0 ≤ Real.sin (2 * Real.pi - 6.283) :=
    Real.sin_nonneg_of_nonneg_of_le_pi hd0 (by linarith)
  constructor
  · rw [he]
    linarith
  · rw [he]
    linarith

/-- The cosine of 6.283 is close to 1. -/
lemma cos_6283_bounds :
    1 - 0.0000001 < Real.cos 6.283 ∧ Real.cos 6.283 ≤ 1 := by
  have hgt := Real.pi_gt_d6
  have hlt := Real.pi_lt_d6
  have harg : (6.283 : ℝ) = 2 * Real.pi - (2 * Real.pi - 6.283) := by ring
  have he : Real.cos 6.283 = Real.cos (2 * Real.pi - 6.283) := by
    nth_rewrite 1 [harg]
    exact Real.cos_two_pi_sub _
  have hd0 : (0:ℝ) ≤ 2 * Real.pi - 6.283 := by linarith
  have hdle : 2 * Real.pi - 6.283 < 0.000186 := by linarith
  have hcpos : 0 < Real.cos (2 * Real.pi - 6.283) := by
    apply Real.cos_pos_of_mem_Ioo
    refine Set.mem_Ioo.mpr ⟨?_, ?_⟩
    · have hpi : (0:ℝ) < Real.pi := Real.pi_pos
      linarith
    · linarith
  have hslt : Real.sin (2 * Real.pi - 6.283) < 0.000186 :=
    lt_of_le_of_lt (Real.sin_le hd0) hdle
  have hsge : 0 ≤ Real.sin (2 * Real.pi - 6.283) :=
    Real.sin_nonneg_of_nonneg_of_le_pi hd0 (by linarith)
  have hsq := Real.sin_sq_add_cos_sq (2 * Real.pi - 6.283)
  constructor
  · rw [he]
    nlinarith [hcpos, hslt, hsge, hsq]
  · exact Real.cos_le_one _

/-- The magnitude is the square root of the self dot product. -/
lemma vectorMagnitude_eq_sqrt_dot (v : Vector) :
    vectorMagnitude v = Real.sqrt (dotProduct v v) := rfl

/-- Squared magnitude of the projection of `v1` onto `v2`. -/
lemma projection_magSq (v1 v2 : Vector) (hq : dotProduct v2 v2 ≠ 0) :
    dotProduct (vectorComponentParallelToAnotherVector v1 v2)
        (vectorComponentParallelToAnotherVector v1 v2)
      = (dotProduct v1 v2) ^ 2 / dotProduct v2 v2 := by
  simp only [vectorComponentParallelToAnotherVector, dotProduct]
  simp only [dotProduct] at hq
  field_simp
  ring

/-- A projection whose squared dot product dominates the squared length of the
axis has magnitude at least 1. -/
lemma one_le_projection_magnitude (v1 v2 : Vector)
    (hq : 0 < dotProduct v2 v2)
    (hd : dotProduct v2 v2 ≤ (dotProduct v1 v2) ^ 2) :
    1 ≤ vectorMagnitude (vectorComponentParallelToAnotherVector v1 v2) := by
  rw [vectorMagnitude_eq_sqrt_dot, projection_magSq v1 v2 hq.ne.symm]
  rw [show (1:ℝ) = Real.sqrt 1 from Real.sqrt_one.symm]
  apply Real.sqrt_le_sqrt
  rw [le_div_iff₀ hq, one_mul]
  exact hd

/-- Claim C5 (failing evaluation): at v1 = (0, 0, 2), parallel to the axis
v2 = (0, 0, 1), the perpendicular component is the zero vector and the
magnitude of `w = crossProduct(v2, perp)` is 0; `rotateVectorAroundAnotherVector`
has no special case and lines 122-124 divide by this zero `w_mag`
unconditionally. -/
theorem C5_code_eval :
    perpendicularToV2 ⟨0, 0, 2⟩ ⟨0, 0, 1⟩ = ⟨0, 0, 0⟩ ∧
      vectorMagnitude (rotationAxisW ⟨0, 0, 2⟩ ⟨0, 0, 1⟩) = 0 := by
  have hp : perpendicularToV2 (⟨0, 0, 2⟩ : Vector) ⟨0, 0, 1⟩ = ⟨0, 0, 0⟩ := by
    simp only [perpendicularToV2, paralelToV2,
      vectorComponentParallelToAnotherVector, subtractVectors, dotProduct]
    ext <;> norm_num
  refine ⟨hp, ?_⟩
  rw [rotationAxisW, hp]
  rw [show crossProduct (⟨0, 0, 1⟩ : Vector) ⟨0, 0, 0⟩ = ⟨0, 0, 0⟩ by
    simp only [crossProduct]; ext <;> norm_num]
  rw [vectorMagnitude_eval _ 0 le_rfl (by norm_num)]

/-- The self dot product is nonnegative. -/
lemma dot_self_nonneg (v : Vector) : 0 ≤ dotProduct v v := by
  simp only [dotProduct]
  nlinarith [mul_self_nonneg v.X, mul_self_nonneg v.Y, mul_self_nonneg v.Z]

/-- The self dot product of a vector other than the zero vector is positive. -/
lemma dot_self_pos (v : Vector) (h : v ≠ ⟨0, 0, 0⟩) : 0 < dotProduct v v := by
  rcases (dot_self_nonneg v).lt_or_eq with hlt | heq
  · exact hlt
  · exfalso
    apply h
    have h0 : v.X * v.X + v.Y * v.Y + v.Z * v.Z = 0 := by
      simpa [dotProduct] using heq.symm
    have hX : v.X = 0 := mul_self_eq_zero.mp (by
      nlinarith [mul_self_nonneg v.X, mul_self_nonneg v.Y, mul_self_nonneg v.Z])
    have hY : v.Y = 0 := mul_self_eq_zero.mp (by
      nlinarith [mul_self_nonneg v.X, mul_self_nonneg v.Y, mul_self_nonneg v.Z])
    have hZ : v.Z = 0 := mul_self_eq_zero.mp (by
      nlinarith [mul_self_nonneg v.X, mul_self_nonneg v.Y, mul_self_nonneg v.Z])
    ext <;> simp [hX, hY, hZ]

/-- Lagrange identity for the cross product, a polynomial identity on the
components. -/
lemma cross_self_dot (a b : Vector) :
    dotProduct (crossProduct a b) (crossProduct a b)
      = dotProduct a a * dotProduct b b - (dotProduct a b) ^ 2 := by
  simp only [crossProduct, dotProduct]
  ring

/-- The perpendicular residue of `v1` against `v2` is orthogonal to `v2`. -/
lemma dot_v2_perp (v1 v2 : Vector) (hq : dotProduct v2 v2 ≠ 0) :
    dotProduct v2 (perpendicularToV2 v1 v2) = 0 := by
  simp only [perpendicularToV2, paralelToV2,
    vectorComponentParallelToAnotherVector, subtractVectors, dotProduct]
  simp only [dotProduct] at hq
  field_simp
  ring

/-- Squared length of the local `w` of `rotateVectorAroundAnotherVector`. -/
lemma w_magSq_eq (v1 v2 : Vector) (hq : dotProduct v2 v2 ≠ 0) :
    dotProduct (rotationAxisW v1 v2) (rotationAxisW v1 v2)
      = dotProduct v2 v2
          * dotProduct (perpendicularToV2 v1 v2) (perpendicularToV2 v1 v2) := by
  rw [rotationAxisW, cross_self_dot, dot_v2_perp v1 v2 hq]
  ring

/-- The `w_mag` divisor of `rotateVectorAroundAnotherVector` is positive when
the axis is non-zero and `v1` is not parallel to it. -/
lemma rotationAxisW_mag_pos (v1 v2 : Vector) (h2 : 0 < dotProduct v2 v2)
    (hp : perpendicularToV2 v1 v2 ≠ ⟨0, 0, 0⟩) :
    0 < vectorMagnitude (rotationAxisW v1 v2) := by
  rw [vectorMagnitude_eq_sqrt_dot]
  apply Real.sqrt_pos.mpr
  rw [w_magSq_eq v1 v2 h2.ne.symm]
  exact mul_pos h2 (dot_self_pos _ hp)

/-- Decomposition of the squared length of the perpendicular residue. -/
lemma perp_magSq_eq (v1 v2 : Vector) (hq : dotProduct v2 v2 ≠ 0) :
    dotProduct (perpendicularToV2 v1 v2) (perpendicularToV2 v1 v2)
      = dotProduct v1 v1 - (dotProduct v1 v2) ^ 2 / dotProduct v2 v2 := by
  simp only [perpendicularToV2, paralelToV2,
    vectorComponentParallelToAnotherVector, subtractVectors, dotProduct]
  simp only [dotProduct] at hq
  field_simp
  ring

/-- The perpendicular residue is no longer than `v1` itself. -/
lemma perp_mag_le (v1 v2 : Vector) (hq : 0 < dotProduct v2 v2) :
    vectorMagnitude (perpendicularToV2 v1 v2) ≤ vectorMagnitude v1 := by
  rw [vectorMagnitude_eq_sqrt_dot, vectorMagnitude_eq_sqrt_dot]
  apply Real.sqrt_le_sqrt
  rw [perp_magSq_eq v1 v2 hq.ne.symm]
  have hnn : 0 ≤ (dotProduct v1 v2) ^ 2 / dotProduct v2 v2 := by positivity
  linarith

/-- Each component of a vector is bounded by the magnitude. -/
lemma component_abs_le_magnitude (v : Vector) :
    |v.X| ≤ vectorMagnitude v ∧ |v.Y| ≤ vectorMagnitude v ∧
      |v.Z| ≤ vectorMagnitude v := by
  refine ⟨?_, ?_, ?_⟩ <;>
  · rw [vectorMagnitude, ← Real.sqrt_mul_self_eq_abs]
    apply Real.sqrt_le_sqrt
    nlinarith [mul_self_nonneg v.X, mul_self_nonneg v.Y, mul_self_nonneg v.Z]

/-- Claim C6 (failing evaluation): with vUp = (0, 0, 1.5) and
vUpFront = (0.75, 0, 0.8), decomposing v = vUp in the orientation produced by
`findOrientation` yields a FRONT signed magnitude of absolute value at least
1, far from the approximately 0 the claim requires (the truncated integer
division inside `unitVector` makes the Gram-Schmidt step of
`rotateVectorThroughAnotherVector` miss, so `vFront` is far from orthogonal
to `vUp`). -/
theorem C6_code_eval :
    vectorMagnitude (⟨0, 0, 1.5⟩ : Vector) = 1.5 ∧
      1 ≤ |(findVectorsMagnitudeInTheOrientation ⟨0, 0, 1.5⟩
            (findOrientation ⟨0, 0, 1.5⟩ ⟨0.75, 0, 0.8⟩)).FRONT| := by
  have hc := cos_157075_bounds
  have hs := sin_157075_bounds
  have hs0 : (0:ℝ) ≤ Real.sin 1.57075 := by linarith [hs.1]
  have hmUp : vectorMagnitude (⟨0, 0, 1.5⟩ : Vector) = 1.5 :=
    vectorMagnitude_eval _ 1.5 (by norm_num) (by norm_num)
  refine ⟨hmUp, ?_⟩
  have hu1 : unitVector (⟨0, 0, 1.5⟩ : Vector) = ⟨0, 0, 1.5⟩ := by
    rw [unitVector_eval ⟨0, 0, 1.5⟩ 1.5 1 hmUp (by norm_num) (by norm_num)]
    norm_num
  have hu2 : unitVector (⟨0.75, 0, -1⟩ : Vector) = ⟨0.75, 0, -1⟩ := by
    rw [unitVector_eval ⟨0.75, 0, -1⟩ 1.25 1
      (vectorMagnitude_eval _ 1.25 (by norm_num) (by norm_num))
      (by norm_num) (by norm_num)]
    norm_num
  have hvF : (findOrientation ⟨0, 0, 1.5⟩ ⟨0.75, 0, 0.8⟩).vFront
      = ⟨1.125 * Real.sin 1.57075, 0,
         2.25 * Real.cos 1.57075 - 1.5 * Real.sin 1.57075⟩ := by
    show rotateVectorThroughAnotherVector ⟨0, 0, 1.5⟩ ⟨0.75, 0, 0.8⟩ 90 = _
    simp only [rotateVectorThroughAnotherVector, hu1, dotProduct, PI]
    rw [show ((90 : ℤ) : ℝ) * (3.1415 / 180) = 1.57075 by push_cast; norm_num]
    rw [show (⟨0.75 - (0.75 * 0 + 0 * 0 + 0.8 * 1.5) * 0,
              0 - (0.75 * 0 + 0 * 0 + 0.8 * 1.5) * 0,
              0.8 - (0.75 * 0 + 0 * 0 + 0.8 * 1.5) * 1.5⟩ : Vector)
        = ⟨0.75, 0, -1⟩ by ext <;> norm_num]
    rw [hu2, hmUp]
    ext <;> ring
  have hFeq : (findVectorsMagnitudeInTheOrientation ⟨0, 0, 1.5⟩
        (findOrientation ⟨0, 0, 1.5⟩ ⟨0.75, 0, 0.8⟩)).FRONT
      = (if isVectorsInOppositeDirection
            (findOrientation ⟨0, 0, 1.5⟩ ⟨0.75, 0, 0.8⟩).vFront
            (vectorComponentParallelToAnotherVector ⟨0, 0, 1.5⟩
              (findOrientation ⟨0, 0, 1.5⟩ ⟨0.75, 0, 0.8⟩).vFront)
         then -(vectorMagnitude (vectorComponentParallelToAnotherVector
              ⟨0, 0, 1.5⟩ (findOrientation ⟨0, 0, 1.5⟩ ⟨0.75, 0, 0.8⟩).vFront))
         else vectorMagnitude (vectorComponentParallelToAnotherVector
              ⟨0, 0, 1.5⟩
              (findOrientation ⟨0, 0, 1.5⟩ ⟨0.75, 0, 0.8⟩).vFront)) := rfl
  rw [hFeq, hvF]
  have ht : (0.89:ℝ) < Real.sin 1.57075 - 1.5 * Real.cos 1.57075 := by
    linarith [hs.1, hc.1, hc.2]
  have hq : (0:ℝ) < dotProduct
      (⟨1.125 * Real.sin 1.57075, 0,
        2.25 * Real.cos 1.57075 - 1.5 * Real.sin 1.57075⟩ : Vector)
      ⟨1.125 * Real.sin 1.57075, 0,
        2.25 * Real.cos 1.57075 - 1.5 * Real.sin 1.57075⟩ := by
    simp only [dotProduct]
    nlinarith [hs.1, hs0,
      mul_self_nonneg (2.25 * Real.cos 1.57075 - 1.5 * Real.sin 1.57075)]
  have hdom : dotProduct
      (⟨1.125 * Real.sin 1.57075, 0,
        2.25 * Real.cos 1.57075 - 1.5 * Real.sin 1.57075⟩ : Vector)
      ⟨1.125 * Real.sin 1.57075, 0,
        2.25 * Real.cos 1.57075 - 1.5 * Real.sin 1.57075⟩
      ≤ (dotProduct ⟨0, 0, 1.5⟩
          (⟨1.125 * Real.sin 1.57075, 0,
            2.25 * Real.cos 1.57075 - 1.5 * Real.sin 1.57075⟩ : Vector)) ^ 2 := by
    simp only [dotProduct]
    nlinarith [ht, hs.2, hs0, hc.1]
  have hm1 : 1 ≤ vectorMagnitude (vectorComponentParallelToAnotherVector
      ⟨0, 0, 1.5⟩
      ⟨1.125 * Real.sin 1.57075, 0,
        2.25 * Real.cos 1.57075 - 1.5 * Real.sin 1.57075⟩) :=
    one_le_projection_magnitude _ _ hq hdom
  by_cases hop : isVectorsInOppositeDirection
      (⟨1.125 * Real.sin 1.57075, 0,
        2.25 * Real.cos 1.57075 - 1.5 * Real.sin 1.57075⟩ : Vector)
      (vectorComponentParallelToAnotherVector ⟨0, 0, 1.5⟩
        ⟨1.125 * Real.sin 1.57075, 0,
          2.25 * Real.cos 1.57075 - 1.5 * Real.sin 1.57075⟩)
  · rw [if_pos hop, abs_neg, abs_of_nonneg (by linarith)]
    exact hm1
  · rw [if_neg hop, abs_of_nonneg (by linarith)]
    exact hm1

/-- Claim C7: for a non-zero axis `v2` and `v1` not parallel to `v2`,
`rotateVectorAroundAnotherVector` returns `v1` exactly at angle 0, and at
angle 360 each component of the result is within 0.0002 * magnitude(v1) of
the corresponding component of `v1` (the residue comes from the truncated
constant PI = 3.1415, which makes 360 degrees map to 6.283 rather than
2 * pi radians). -/
theorem C7_rotateAround_identity_angles (v1 v2 : Vector)
    (h2 : (0:ℝ) < dotProduct v2 v2)
    (hp : perpendicularToV2 v1 v2 ≠ ⟨0, 0, 0⟩) :
    rotateVectorAroundAnotherVector v1 v2 0 = v1 ∧
      (|(rotateVectorAroundAnotherVector v1 v2 360).X - v1.X|
          ≤ 0.0002 * vectorMagnitude v1 ∧
       |(rotateVectorAroundAnotherVector v1 v2 360).Y - v1.Y|
          ≤ 0.0002 * vectorMagnitude v1 ∧
       |(rotateVectorAroundAnotherVector v1 v2 360).Z - v1.Z|
          ≤ 0.0002 * vectorMagnitude v1) := by
  constructor
  · have hrad : ((0:ℤ):ℝ) * (PI / 180) = 0 := by push_cast; ring
    simp only [rotateVectorAroundAnotherVector, hrad, Real.cos_zero,
      Real.sin_zero]
    ext <;> (simp only [perpendicularToV2, paralelToV2, subtractVectors,
      vectorComponentParallelToAnotherVector]; ring)
  · have hcos := cos_6283_bounds
    have hsin := sin_6283_bounds
    have hrad : ((360:ℤ):ℝ) * (PI / 180) = 6.283 := by
      rw [PI]; push_cast; norm_num
    have hwm : 0 < vectorMagnitude (rotationAxisW v1 v2) :=
      rotationAxisW_mag_pos v1 v2 h2 hp
    have hpm0 : 0 ≤ vectorMagnitude (perpendicularToV2 v1 v2) :=
      Real.sqrt_nonneg _
    have hpm_le := perp_mag_le v1 v2 h2
    have hcompP := component_abs_le_magnitude (perpendicularToV2 v1 v2)
    have hcompW := component_abs_le_magnitude (rotationAxisW v1 v2)
    have habs : ∀ p w : ℝ,
        |p| ≤ vectorMagnitude (perpendicularToV2 v1 v2) →
        |w| ≤ vectorMagnitude (rotationAxisW v1 v2) →
        |p * (Real.cos 6.283 - 1)
            + vectorMagnitude (perpendicularToV2 v1 v2)
              * (w / vectorMagnitude (rotationAxisW v1 v2)) * Real.sin 6.283|
          ≤ 0.0002 * vectorMagnitude v1 := by
      intro p w hpb hwb
      have h1 : |p * (Real.cos 6.283 - 1)|
          ≤ vectorMagnitude (perpendicularToV2 v1 v2) * 0.0000001 := by
        rw [abs_mul]
        have hc1 : |Real.cos 6.283 - 1| ≤ 0.0000001 := by
          rw [abs_le]
          constructor
          · linarith [hcos.1]
          · linarith [hcos.2]
        exact mul_le_mul hpb hc1 (abs_nonneg _) hpm0
      have hr : |w / vectorMagnitude (rotationAxisW v1 v2)| ≤ 1 := by
        rw [abs_div, abs_of_pos hwm, div_le_one hwm]
        exact hwb
      have hsb : |Real.sin 6.283| ≤ 0.000186 := by
        rw [abs_le]
        constructor
        · linarith [hsin.1]
        · linarith [hsin.2]
      have h2' : |vectorMagnitude (perpendicularToV2 v1 v2)
            * (w / vectorMagnitude (rotationAxisW v1 v2)) * Real.sin 6.283|
          ≤ vectorMagnitude (perpendicularToV2 v1 v2) * 0.000186 := by
        rw [abs_mul, abs_mul, abs_of_nonneg hpm0]
        have step1 : vectorMagnitude (perpendicularToV2 v1 v2)
              * |w / vectorMagnitude (rotationAxisW v1 v2)|
            ≤ vectorMagnitude (perpendicularToV2 v1 v2) * 1 :=
          mul_le_mul le_rfl hr (abs_nonneg _) hpm0
        have step2 : vectorMagnitude (perpendicularToV2 v1 v2)
              * |w / vectorMagnitude (rotationAxisW v1 v2)|
              * |Real.sin 6.283|
            ≤ (vectorMagnitude (perpendicularToV2 v1 v2) * 1) * 0.000186 :=
          mul_le_mul step1 hsb (abs_nonneg _) (by linarith)
        linarith [step2]
      calc |p * (Real.cos 6.283 - 1)
              + vectorMagnitude (perpendicularToV2 v1 v2)
                * (w / vectorMagnitude (rotationAxisW v1 v2))
                * Real.sin 6.283|
          ≤ |p * (Real.cos 6.283 - 1)|
              + |vectorMagnitude (perpendicularToV2 v1 v2)
                  * (w / vectorMagnitude (rotationAxisW v1 v2))
                  * Real.sin 6.283| := abs_add _ _
        _ ≤ vectorMagnitude (perpendicularToV2 v1 v2) * 0.0000001
              + vectorMagnitude (perpendicularToV2 v1 v2) * 0.000186 :=
            add_le_add h1 h2'
        _ ≤ 0.0002 * vectorMagnitude v1 := by linarith [hpm_le, hpm0]
    refine ⟨?_, ?_, ?_⟩
    · have hdiff : (rotateVectorAroundAnotherVector v1 v2 360).X - v1.X
          = (perpendicularToV2 v1 v2).X * (Real.cos 6.283 - 1)
            + vectorMagnitude (perpendicularToV2 v1 v2)
              * ((rotationAxisW v1 v2).X
                  / vectorMagnitude (rotationAxisW v1 v2)) * Real.sin 6.283 := by
        simp only [rotateVectorAroundAnotherVector, hrad]
        simp only [perpendicularToV2, paralelToV2, subtractVectors,
          vectorComponentParallelToAnotherVector]
        ring
      rw [hdiff]
      exact habs _ _ hcompP.1 hcompW.1
    · have hdiff : (rotateVectorAroundAnotherVector v1 v2 360).Y - v1.Y
          = (perpendicularToV2 v1 v2).Y * (Real.cos 6.283 - 1)
            + vectorMagnitude (perpendicularToV2 v1 v2)
              * ((rotationAxisW v1 v2).Y
                  / vectorMagnitude (rotationAxisW v1 v2)) * Real.sin 6.283 := by
        simp only [rotateVectorAroundAnotherVector, hrad]
        simp only [perpendicularToV2, paralelToV2, subtractVectors,
          vectorComponentParallelToAnotherVector]
        ring
      rw [hdiff]
      exact habs _ _ hcompP.2.1 hcompW.2.1
    · have hdiff : (rotateVectorAroundAnotherVector v1 v2 360).Z - v1.Z
          = (perpendicularToV2 v1 v2).Z * (Real.cos 6.283 - 1)
            + vectorMagnitude (perpendicularToV2 v1 v2)
              * ((rotationAxisW v1 v2).Z
                  / vectorMagnitude (rotationAxisW v1 v2)) * Real.sin 6.283 := by
        simp only [rotateVectorAroundAnotherVector, hrad]
        simp only [perpendicularToV2, paralelToV2, subtractVectors,
          vectorComponentParallelToAnotherVector]
        ring
      rw [hdiff]
      exact habs _ _ hcompP.2.2 hcompW.2.2

/-- Witness for C7 at v1 = (1, 0, 0), v2 = (0, 0, 1): the hypotheses hold and
angle 0 returns v1 exactly. -/
theorem C7_witness :
    ((0:ℝ) < dotProduct ⟨0, 0, 1⟩ ⟨0, 0, 1⟩ ∧
        perpendicularToV2 ⟨1, 0, 0⟩ ⟨0, 0, 1⟩ ≠ ⟨0, 0, 0⟩) ∧
      rotateVectorAroundAnotherVector ⟨1, 0, 0⟩ ⟨0, 0, 1⟩ 0 = ⟨1, 0, 0⟩ := by
  have h2 : (0:ℝ) < dotProduct ⟨0, 0, 1⟩ ⟨0, 0, 1⟩ := by
    simp only [dotProduct]
    norm_num
  have hpx : (perpendicularToV2 (⟨1, 0, 0⟩ : Vector) ⟨0, 0, 1⟩).X = 1 := by
    simp only [perpendicularToV2, paralelToV2,
      vectorComponentParallelToAnotherVector, subtractVectors, dotProduct]
    norm_num
  have hp : perpendicularToV2 (⟨1, 0, 0⟩ : Vector) ⟨0, 0, 1⟩ ≠ ⟨0, 0, 0⟩ := by
    intro h
    rw [h] at hpx
    norm_num at hpx
  exact ⟨⟨h2, hp⟩,
    (C7_rotateAround_identity_angles ⟨1, 0, 0⟩ ⟨0, 0, 1⟩ h2 hp).1⟩

/-- Claim C8: when the projection of `v` onto a basis axis is the zero vector,
`findVectorsMagnitudeInTheOrientation` reports that axis's signed magnitude as
0 (no negation happens, as the dot product against the zero projection is 0,
not strictly negative), and `isVectorsInOppositeDirection` holds exactly when
the dot product is strictly negative. -/
theorem C8_zero_projection_reports_zero (v : Vector)
    (orientation : Orientation) :
    (∀ v1 v2 : Vector,
       isVectorsInOppositeDirection v1 v2 ↔ dotProduct v1 v2 < 0) ∧
    (∀ v1 : Vector, ¬ isVectorsInOppositeDirection v1 ⟨0, 0, 0⟩) ∧
    (vectorComponentParallelToAnotherVector v orientation.vUp = ⟨0, 0, 0⟩ →
      (findVectorsMagnitudeInTheOrientation v orientation).UP = 0) ∧
    (vectorComponentParallelToAnotherVector v orientation.vFront = ⟨0, 0, 0⟩ →
      (findVectorsMagnitudeInTheOrientation v orientation).FRONT = 0) ∧
    (vectorComponentParallelToAnotherVector v orientation.vRight = ⟨0, 0, 0⟩ →
      (findVectorsMagnitudeInTheOrientation v orientation).RIGHT = 0) := by
  refine ⟨fun v1 v2 => Iff.rfl, ?_, ?_, ?_, ?_⟩
  · intro v1
    simp [isVectorsInOppositeDirection, dotProduct]
  · intro h
    simp [findVectorsMagnitudeInTheOrientation,
      findVectorComponentsInTheOrientation, h, isVectorsInOppositeDirection,
      dotProduct, vectorMagnitude, Real.sqrt_zero]
  · intro h
    simp [findVectorsMagnitudeInTheOrientation,
      findVectorComponentsInTheOrientation, h, isVectorsInOppositeDirection,
      dotProduct, vectorMagnitude, Real.sqrt_zero]
  · intro h
    simp [findVectorsMagnitudeInTheOrientation,
      findVectorComponentsInTheOrientation, h, isVectorsInOppositeDirection,
      dotProduct, vectorMagnitude, Real.sqrt_zero]

/-- Witness for C8: the measured vector (1, 0, 0) has zero projection onto the
up axis of the orientation ((0,0,1), (0,1,0), (1,0,0)), and the reported UP
magnitude is 0. -/
theorem C8_witness :
    (vectorComponentParallelToAnotherVector ⟨1, 0, 0⟩
        (⟨⟨0, 0, 1⟩, ⟨0, 1, 0⟩, ⟨1, 0, 0⟩⟩ : Orientation).vUp = ⟨0, 0, 0⟩) ∧
      (findVectorsMagnitudeInTheOrientation ⟨1, 0, 0⟩
        ⟨⟨0, 0, 1⟩, ⟨0, 1, 0⟩, ⟨1, 0, 0⟩⟩).UP = 0 := by
  have h : vectorComponentParallelToAnotherVector (⟨1, 0, 0⟩ : Vector)
      (⟨⟨0, 0, 1⟩, ⟨0, 1, 0⟩, ⟨1, 0, 0⟩⟩ : Orientation).vUp = ⟨0, 0, 0⟩ := by
    simp only [vectorComponentParallelToAnotherVector, dotProduct]
    ext <;> norm_num
  exact ⟨h, (C8_zero_projection_reports_zero ⟨1, 0, 0⟩
    ⟨⟨0, 0, 1⟩, ⟨0, 1, 0⟩, ⟨1, 0, 0⟩⟩).2.2.1 h⟩

/-- Claim C9: the `vUp` field of the `Orientation` returned by
`findOrientation` is exactly the input `vUp` vector (line 132 `memcpy`). -/
theorem C9_findOrientation_copies_vUp (vUp vUpFront : Vector) :
    (findOrientation vUp vUpFront).vUp = vUp := rfl

/-- Claim C10: `crossProduct v1 v2` is the componentwise negation of
`crossProduct v2 v1`, exactly. -/
theorem C10_crossProduct_anticomm (v1 v2 : Vector) :
    crossProduct v1 v2 =
      ⟨-(crossProduct v2 v1).X, -(crossProduct v2 v1).Y,
       -(crossProduct v2 v1).Z⟩ := by
  simp only [crossProduct]
  ext <;> ring

end AccOrientation
